import Mathlib

/-!
Verification of the tool registry and invocation dispatcher of the
repository (src/js/tools/tool-manager.js and src/js/tools/email-sender.js),
as a shallow embedding in Lean 4.

Modelling conventions:
* JavaScript values that cross the interfaces under study (tool arguments,
  declarations, execution results) are modelled by the inductive `Json`.
* A JS `Map` preserves insertion order, so the registry `this.tools` is an
  association list `List (String × Tool)`; `registerTool` enforces key
  uniqueness, exactly as in the source.
* An `async` method that can reject is a function into `Except JSError α`:
  `Except.error e` is a rejected promise (or a synchronously thrown error),
  `Except.ok v` a fulfilled one.
* A duck-typed tool instance is a `Tool` record whose two observable members
  are optional: `getDeclaration = none` models an object without that
  method (the source checks `if (tool.getDeclaration)` before calling it),
  and `execute = none` models an object without an `execute` method, in
  which case calling it raises a `TypeError` inside the dispatcher's `try`
  block.
* Logging (`Logger.info` / `Logger.error`) is fire-and-forget and does not
  affect any value under study; it is elided.
-/

/-- A JavaScript value, as far as the interfaces under study observe it. -/
inductive Json where
  | str (s : String)
  | num (n : Int)
  | arr (elems : List Json)
  | obj (fields : List (String × Json))
deriving Repr

/-- A thrown JS error, observed through its `message` property
(the only property the code under study reads). -/
structure JSError where
  message : String
deriving Repr, DecidableEq

/-- The error codes of src/js/utils/error-boundary.js that tool-manager.js
uses. The module itself is not under study; the codes are opaque tokens
carried by `ApplicationError`. -/
inductive ErrorCode where
  | INVALID_STATE
  | INVALID_PARAMETER
deriving Repr, DecidableEq

/-- `ApplicationError` from src/js/utils/error-boundary.js: an error with a
message and a programmatically inspectable code. -/
structure ApplicationError where
  message : String
  code : ErrorCode
deriving Repr, DecidableEq

/-- A registered tool instance, as observed by ToolManager: an object that
may have a `getDeclaration()` method (synchronous, pure) and may have an
`execute(args)` method (async, may reject). `none` models the absence of
the member on the object. -/
structure Tool where
  getDeclaration : Option Json
  execute : Option (Json → Except JSError Json)

/-- The ToolManager state: `this.tools`, a `Map` from tool name to tool
instance, kept in insertion order. -/
structure ToolManager where
  tools : List (String × Tool)

/-- `Map.prototype.has` on the registry. -/
def ToolManager.hasName (m : ToolManager) (name : String) : Bool :=
  m.tools.any (fun p => p.1 == name)

/-- `Map.prototype.get` on the registry. -/
def ToolManager.mapGet (m : ToolManager) (name : String) : Option Tool :=
  (m.tools.find? (fun p => p.1 == name)).map (fun p => p.2)

/-- `ToolManager.registerTool(name, toolInstance)` (tool-manager.js lines
58-67): throws an `ApplicationError` with `ErrorCodes.INVALID_STATE` when
`name` is already bound, otherwise inserts the binding. -/
def ToolManager.registerTool (m : ToolManager) (name : String)
    (toolInstance : Tool) : Except ApplicationError ToolManager :=
  if m.hasName name then
    .error ⟨"Tool " ++ name ++ " is already registered", .INVALID_STATE⟩
  else
    .ok ⟨m.tools ++ [(name, toolInstance)]⟩

/-- One element of the array returned by `getToolDeclarations`:
`{ functionDeclarations: decl }` for the weather special case, and
`{ [name]: decl }`, a one-key record keyed by the registry name,
for every other tool. -/
inductive DeclRecord where
  | functionDeclarations (decl : Json)
  | keyed (name : String) (decl : Json)
deriving Repr

/-- `ToolManager.getToolDeclarations()` (tool-manager.js lines 75-91):
iterates the registry in insertion order (`Map.prototype.forEach`), skips
tools without a `getDeclaration` member, and pushes one record per
remaining tool, special-casing the name `weather`. -/
def ToolManager.getToolDeclarations (m : ToolManager) : List DeclRecord :=
  m.tools.foldl
    (fun allDeclarations p =>
      match p.2.getDeclaration with
      | none => allDeclarations
      | some decl =>
        if p.1 == "weather" then
          allDeclarations ++ [DeclRecord.functionDeclarations decl]
        else
          allDeclarations ++ [DeclRecord.keyed p.1 decl])
    []

/-- The payload under the `response` key of a function response:
`{ output: result }` on success, `{ error: message }` on failure. -/
inductive ResponsePayload where
  | output (result : Json)
  | error (message : String)
deriving Repr

/-- One element of the `functionResponses` array. -/
structure FunctionResponse where
  response : ResponsePayload
  id : String
deriving Repr

/-- The envelope `handleToolCall` resolves with:
`{ functionResponses: [...] }`. -/
structure ToolCallResult where
  functionResponses : List FunctionResponse
deriving Repr

/-- The `functionCall` argument of `handleToolCall`:
`{ name, args, id }`. -/
structure FunctionCall where
  name : String
  args : Json
  id : String
deriving Repr

/-- The name-resolution step of `handleToolCall` (tool-manager.js lines
108-113): the literal call name `get_weather_on_date` resolves to the tool
registered as `weather`; every other name is looked up directly. -/
def ToolManager.resolveTool (m : ToolManager) (name : String) : Option Tool :=
  if name == "get_weather_on_date" then
    m.mapGet "weather"
  else
    m.mapGet name

/-- `ToolManager.handleToolCall(functionCall)` (tool-manager.js lines
104-139). `Except.error` is the async function's rejection channel: the
unknown-tool `ApplicationError` is thrown outside the `try` block and so
rejects the returned promise. Inside the `try`, a fulfilled `execute`
yields an `output` payload and a rejected one is caught and turned into an
`error` payload carrying the error's message; a missing `execute` member
raises a `TypeError` inside the `try` and is likewise caught. -/
def ToolManager.handleToolCall (m : ToolManager) (functionCall : FunctionCall) :
    Except ApplicationError ToolCallResult :=
  match m.resolveTool functionCall.name with
  | none =>
    .error ⟨"Unknown tool: " ++ functionCall.name, .INVALID_PARAMETER⟩
  | some tool =>
    match tool.execute with
    | none =>
      .ok ⟨[⟨.error "tool.execute is not a function", functionCall.id⟩]⟩
    | some execute =>
      match execute functionCall.args with
      | .ok result => .ok ⟨[⟨.output result, functionCall.id⟩]⟩
      | .error e => .ok ⟨[⟨.error e.message, functionCall.id⟩]⟩

/-! ## EmailSenderTool (src/js/tools/email-sender.js) -/

/-- JS string coercion `String(v)` as `Array.prototype.join` applies it to
array elements and template literals apply it to interpolated values. -/
def jsToString : Json → String
  | .str s => s
  | .num n => toString n
  | .obj _ => "[object Object]"
  | .arr xs => String.intercalate "," (xs.attach.map (fun x => jsToString x.1))
decreasing_by
  have h := List.sizeOf_lt_of_mem x.2
  simp only [Json.arr.sizeOf_spec]
  omega

/-- Property lookup `o.k` on a JS value: `none` is `undefined` (also for a
lookup on a non-object, which suffices here since the dispatcher always
passes the `args` object through unchanged). -/
def getField (j : Json) (k : String) : Option Json :=
  match j with
  | .obj fields => (fields.find? (fun f => f.1 == k)).map (fun f => f.2)
  | _ => none

/-- JS truthiness of a possibly-undefined value, as used by
`attachment ? ... : ...` and `attachment || 'none'`:
`undefined`, `''` and `0` are falsy. -/
def jsTruthy : Option Json → Bool
  | none => false
  | some (.str s) => !(s == "")
  | some (.num n) => !(n == 0)
  | some (.arr _) => true
  | some (.obj _) => true

/-- The fields destructured from `args` by `EmailSenderTool.execute`:
`const { recipients, subject, body, attachment } = args`. Each is the
property's value, or `undefined` (`none`) when absent. -/
structure EmailArgs where
  recipients : Option Json
  subject : Option Json
  body : Option Json
  attachment : Option Json

/-- The destructuring step of `EmailSenderTool.execute`. -/
def destructureEmailArgs (args : Json) : EmailArgs :=
  ⟨getField args "recipients", getField args "subject",
   getField args "body", getField args "attachment"⟩

/-- `recipients.join(', ')`: succeeds with the comma-space-joined
stringification when `recipients` is an array, and raises a `TypeError`
(here: any `JSError`) when it is `undefined` or a non-array. -/
def joinRecipients : Option Json → Except JSError String
  | some (.arr xs) => .ok (String.intercalate ", " (xs.map jsToString))
  | _ => .error ⟨"recipients.join is not a function"⟩

/-- Template-literal interpolation of a possibly-undefined value:
`undefined` prints as the string `undefined`. -/
def interpolate : Option Json → String
  | none => "undefined"
  | some v => jsToString v

/-- The `mailOptions` object built by `EmailSenderTool.execute` (the
`from` field is the configured sender address and carries no information
from the call, so it is elided). -/
structure MailOptions where
  «to» : String
  subject : String
  text : String
  attachments : List Json
deriving Repr

/-- The body of the `try` block of `EmailSenderTool.execute`
(email-sender.js lines 43-74), parameterised by the external transport
`sendMail` (nodemailer). It destructures the args, joins the recipients
(which can throw), builds `mailOptions`, awaits `sendMail`, and fulfills
with the summary string. -/
def emailTryBody (sendMail : MailOptions → Except JSError Unit)
    (args : Json) : Except JSError Json := do
  let a := destructureEmailArgs args
  let joined ← joinRecipients a.recipients
  let mailOptions : MailOptions :=
    ⟨joined, interpolate a.subject, interpolate a.body,
     if jsTruthy a.attachment then
       [Json.obj [("filename", Json.str "attachment"),
                  ("path", (a.attachment).getD (Json.str ""))]]
     else []⟩
  let _ ← sendMail mailOptions
  .ok (Json.str
    ("Email sent to " ++ joined ++ " with subject: " ++ interpolate a.subject ++
     " and body: " ++ interpolate a.body ++ ". Attachment: " ++
     (if jsTruthy a.attachment then interpolate a.attachment else "none")))

/-- `EmailSenderTool.execute(args)` (email-sender.js lines 42-79): the
`try` body above, with the `catch` clause rethrowing every failure as
`new Error('Failed to send email: ' + error.message)`. -/
def EmailSenderTool.execute (sendMail : MailOptions → Except JSError Unit)
    (args : Json) : Except JSError Json :=
  match emailTryBody sendMail args with
  | .ok v => .ok v
  | .error e => .error ⟨"Failed to send email: " ++ e.message⟩

/-- `EmailSenderTool.getDeclaration()` (email-sender.js lines 5-40),
transcribed as a `Json` value. -/
def EmailSenderTool.getDeclaration : Json :=
  .obj
    [("name", .str "emailSender"),
     ("description", .str "Sends an email to one or more recipients."),
     ("parameters", .obj
       [("type", .str "object"),
        ("properties", .obj
          [("recipients", .obj
             [("type", .str "array"),
              ("items", .obj
                [("type", .str "string"),
                 ("format", .str "email")]),
              ("description",
               .str "An array of email addresses to send the email to.")]),
           ("subject", .obj
             [("type", .str "string"),
              ("description", .str "The subject line of the email.")]),
           ("body", .obj
             [("type", .str "string"),
              ("description", .str "The content of the email.")]),
           ("attachment", .obj
             [("type", .str "string"),
              ("description",
               .str "File to be attached, must be a URL or a base64 encoded string.")])]),
        ("required", .arr [.str "recipients", .str "subject", .str "body"])])]

/-- The `EmailSenderTool` instance as a registrable tool, parameterised by
the external transport. -/
def emailSenderTool (sendMail : MailOptions → Except JSError Unit) : Tool :=
  ⟨some EmailSenderTool.getDeclaration, some (EmailSenderTool.execute sendMail)⟩

/-- The record `getToolDeclarations` pushes for one registry entry, or
`none` when the entry is skipped for lack of a `getDeclaration` member. -/
def declRecordOf (p : String × Tool) : Option DeclRecord :=
  p.2.getDeclaration.map (fun decl =>
    if p.1 == "weather" then DeclRecord.functionDeclarations decl
    else DeclRecord.keyed p.1 decl)

/-! ## Concrete instances used by the witnesses -/

/-- A concrete always-succeeding execute function (the `calc` example tool
of the specification). -/
def calcExec : Json → Except JSError Json :=
  fun _ => .ok (Json.str "4")

/-- The `calc` example tool. -/
def calcTool : Tool := ⟨none, some calcExec⟩

/-- A concrete always-rejecting execute function. -/
def failExec : Json → Except JSError Json :=
  fun _ => .error ⟨"boom"⟩

/-- A tool whose execution always rejects. -/
def failTool : Tool := ⟨none, some failExec⟩

/-- A concrete declaration value. -/
def weatherDecl : Json :=
  Json.obj [("name", Json.str "get_weather_on_date"),
            ("description", Json.str "Get the weather for a date.")]

/-- A concrete weather tool. -/
def weatherTool : Tool := ⟨some weatherDecl, some calcExec⟩

/-- A tool instance with neither a `getDeclaration` nor an `execute`
member. -/
def bareTool : Tool := ⟨none, none⟩

/-- A concrete registry with a `calc`, a failing and a `weather` tool. -/
def demoManager : ToolManager :=
  ⟨[("calc", calcTool), ("flaky", failTool), ("weather", weatherTool)]⟩

/-- Another concrete declaration value. -/
def notesDecl : Json :=
  Json.obj [("name", Json.str "notes"),
            ("description", Json.str "Keep notes.")]

/-- A concrete tool with both members present. -/
def declaredTool : Tool := ⟨some notesDecl, some calcExec⟩

/-- A concrete registry in which every tool has a declaration. -/
def demoManager2 : ToolManager :=
  ⟨[("weather", weatherTool), ("notes", declaredTool)]⟩

/-- The same names and declarations as `demoManager2`, different
`execute` members. -/
def demoManager2Alt : ToolManager :=
  ⟨[("weather", ⟨some weatherDecl, some failExec⟩),
    ("notes", ⟨some notesDecl, none⟩)]⟩

/-- A concrete always-failing mail transport. -/
def demoSendFail : MailOptions → Except JSError Unit :=
  fun _ => .error ⟨"ECONNREFUSED"⟩

/-- Concrete well-formed email arguments. -/
def demoEmailArgs : Json :=
  Json.obj [("recipients", Json.arr [Json.str "a@example.com"]),
            ("subject", Json.str "Hi"),
            ("body", Json.str "Hello")]

/-- A concrete registry holding the email sender over the failing
transport. -/
def emailManager : ToolManager :=
  ⟨[("emailSender", emailSenderTool demoSendFail)]⟩

/-! ## Helper lemmas -/

theorem getToolDeclarations_foldl_eq (l : List (String × Tool))
    (acc : List DeclRecord) :
    (l.foldl
      (fun allDeclarations p =>
        match p.2.getDeclaration with
        | none => allDeclarations
        | some decl =>
          if p.1 == "weather" then
            allDeclarations ++ [DeclRecord.functionDeclarations decl]
          else
            allDeclarations ++ [DeclRecord.keyed p.1 decl])
      acc)
    = acc ++ l.filterMap declRecordOf := by
  induction l generalizing acc with
  | nil => simp
  | cons p l ih =>
    rw [List.foldl_cons, List.filterMap_cons, ih]
    cases hd : p.2.getDeclaration with
    | none =>
      have hr : declRecordOf p = none := by simp [declRecordOf, hd]
      rw [hr]
    | some decl =>
      cases hw : (p.1 == "weather") with
      | false =>
        have hr : declRecordOf p = some (DeclRecord.keyed p.1 decl) := by
          simp [declRecordOf, hd, hw]
        rw [hr]
        simp [hd, hw]
      | true =>
        have hr : declRecordOf p = some (DeclRecord.functionDeclarations decl) := by
          simp [declRecordOf, hd, hw]
        rw [hr]
        simp [hd, hw]

/-- `getToolDeclarations` is the `filterMap` of the per-entry record. -/
theorem getToolDeclarations_eq (m : ToolManager) :
    m.getToolDeclarations = m.tools.filterMap declRecordOf := by
  rw [ToolManager.getToolDeclarations, getToolDeclarations_foldl_eq,
    List.nil_append]

/-- When `Map.prototype.has` is false, `Map.prototype.get` is undefined. -/
theorem mapGet_eq_none_of_not_hasName (m : ToolManager) (name : String)
    (h : m.hasName name = false) : m.mapGet name = none := by
  simp only [ToolManager.hasName, List.any_eq_false] at h
  have hf : m.tools.find? (fun p => p.1 == name) = none := by
    rw [List.find?_eq_none]
    exact h
  simp [ToolManager.mapGet, hf]

/-! ## Claims -/

/-- C1: for every request whose name resolves to a registered tool (with an
`execute` method), `handleToolCall` resolves — never rejects — to exactly
one envelope `{functionResponses: [{response, id}]}` whose `id` equals the
request's `id`; the payload is `{output: result}` when the tool's `execute`
fulfills with `result` and `{error: m}`, `m` the thrown error's message,
when it rejects: no failure of tool execution escapes `handleToolCall`. -/
theorem handleToolCall_total_on_registered (m : ToolManager)
    (fc : FunctionCall) (t : Tool) (execute : Json → Except JSError Json)
    (h : m.resolveTool fc.name = some t) (hex : t.execute = some execute) :
    m.handleToolCall fc =
      .ok ⟨[⟨match execute fc.args with
             | .ok result => .output result
             | .error e => .error e.message, fc.id⟩]⟩ := by
  simp only [ToolManager.handleToolCall, h, hex]
  cases execute fc.args with
  | ok result => rfl
  | error e => rfl

theorem handleToolCall_total_on_registered_witness :
    (demoManager.resolveTool "flaky" = some failTool ∧
     failTool.execute = some failExec ∧
     demoManager.handleToolCall ⟨"flaky", Json.obj [], "x9"⟩ =
       .ok ⟨[⟨match failExec (Json.obj []) with
              | .ok result => .output result
              | .error e => .error e.message, "x9"⟩]⟩) :=
  ⟨rfl, rfl,
   handleToolCall_total_on_registered demoManager ⟨"flaky", Json.obj [], "x9"⟩
     failTool failExec rfl rfl⟩

/-- C3: after a successful registration of `t1` under `name`, registering
any second tool under the same name throws an `ApplicationError` carrying
`ErrorCodes.INVALID_STATE` (the `DuplicateRegistration` error), and the
first binding is unchanged: the failed call produces no new registry
state, and `name` still resolves to `t1`. -/
theorem registerTool_duplicate_rejected (m m₁ : ToolManager) (name : String)
    (t1 t2 : Tool) (h : m.registerTool name t1 = .ok m₁) :
    m₁.registerTool name t2 =
      .error ⟨"Tool " ++ name ++ " is already registered", .INVALID_STATE⟩ ∧
    m₁.mapGet name = some t1 := by
  unfold ToolManager.registerTool at h
  cases hh : m.hasName name with
  | true => rw [hh] at h; exact absurd h (by simp)
  | false =>
    rw [hh] at h
    simp only [Bool.false_eq_true, if_false] at h
    cases h
    have hone : (ToolManager.mk (m.tools ++ [(name, t1)])).hasName name = true := by
      simp [ToolManager.hasName, List.any_append]
    constructor
    · simp [ToolManager.registerTool, hone]
    · have hf : m.tools.find? (fun p => p.1 == name) = none := by
        rw [List.find?_eq_none]
        simp only [ToolManager.hasName, List.any_eq_false] at hh
        exact hh
      simp [ToolManager.mapGet, List.find?_append, hf]

theorem registerTool_duplicate_rejected_witness :
    ((ToolManager.mk []).registerTool "calc" calcTool =
       .ok ⟨[("calc", calcTool)]⟩ ∧
     (ToolManager.mk [("calc", calcTool)]).registerTool "calc" failTool =
       .error ⟨"Tool calc is already registered", .INVALID_STATE⟩ ∧
     (ToolManager.mk [("calc", calcTool)]).mapGet "calc" = some calcTool) :=
  ⟨rfl,
   (registerTool_duplicate_rejected ⟨[]⟩ ⟨[("calc", calcTool)]⟩ "calc"
      calcTool failTool rfl).1,
   (registerTool_duplicate_rejected ⟨[]⟩ ⟨[("calc", calcTool)]⟩ "calc"
      calcTool failTool rfl).2⟩

/-- C5: when a tool is registered under the name `weather`, a call named
`get_weather_on_date` resolves to that same tool (so its `execute` is
invoked on the request's args) and produces exactly the same response as
the identical request named `weather`. -/
theorem get_weather_on_date_alias (m : ToolManager) (t : Tool)
    (args : Json) (id : String) (h : m.mapGet "weather" = some t) :
    m.resolveTool "get_weather_on_date" = some t ∧
    m.handleToolCall ⟨"get_weather_on_date", args, id⟩ =
      m.handleToolCall ⟨"weather", args, id⟩ := by
  have h1 : m.resolveTool "get_weather_on_date" = some t := by
    simp [ToolManager.resolveTool, h]
  have h2 : m.resolveTool "weather" = some t := by
    simp [ToolManager.resolveTool, h]
  refine ⟨h1, ?_⟩
  unfold ToolManager.handleToolCall
  rw [h1, h2]

theorem get_weather_on_date_alias_witness :
    (demoManager.mapGet "weather" = some weatherTool ∧
     demoManager.resolveTool "get_weather_on_date" = some weatherTool ∧
     demoManager.handleToolCall ⟨"get_weather_on_date", Json.obj [], "w1"⟩ =
       demoManager.handleToolCall ⟨"weather", Json.obj [], "w1"⟩) :=
  ⟨rfl,
   (get_weather_on_date_alias demoManager weatherTool (Json.obj []) "w1" rfl).1,
   (get_weather_on_date_alias demoManager weatherTool (Json.obj []) "w1" rfl).2⟩

/-- C9: `registerTool` validates nothing about the tool instance: for
every name not already bound and every instance whatsoever — including one
with neither a `getDeclaration` nor an `execute` member — registration
succeeds and appends exactly that binding to the registry. -/
theorem registerTool_no_validation (m : ToolManager) (name : String)
    (t : Tool) (h : m.hasName name = false) :
    m.registerTool name t = .ok ⟨m.tools ++ [(name, t)]⟩ := by
  simp [ToolManager.registerTool, h]

theorem registerTool_no_validation_witness :
    ((ToolManager.mk []).hasName "anything" = false ∧
     (ToolManager.mk []).registerTool "anything" bareTool =
       .ok ⟨[("anything", bareTool)]⟩) :=
  ⟨rfl, registerTool_no_validation ⟨[]⟩ "anything" bareTool rfl⟩

/-- C2 counterexample: on the spec's own example input
`{name: "doesNotExist", args: {}, id: "x2"}` the dispatcher does NOT yield
a response envelope — the promise rejects with a thrown
`ApplicationError`, so the claim that no thrown error escapes
`handleToolCall` for unknown names is false. -/
theorem handleToolCall_unknown_throws_cex :
    ToolManager.handleToolCall ⟨[]⟩ ⟨"doesNotExist", Json.obj [], "x2"⟩ =
      .error ⟨"Unknown tool: doesNotExist", .INVALID_PARAMETER⟩ ∧
    (ToolManager.handleToolCall ⟨[]⟩
       ⟨"doesNotExist", Json.obj [], "x2"⟩).isOk = false :=
  ⟨rfl, rfl⟩

/-- C2 amended: for every request whose name is neither a registered tool
name nor the alias `get_weather_on_date`, `handleToolCall` rejects (lets a
thrown `ApplicationError` escape) with message `Unknown tool: <name>` and
code `INVALID_PARAMETER`; no response envelope is produced. -/
theorem handleToolCall_unknown_throws (m : ToolManager) (fc : FunctionCall)
    (h1 : (fc.name == "get_weather_on_date") = false)
    (h2 : m.hasName fc.name = false) :
    m.handleToolCall fc =
      .error ⟨"Unknown tool: " ++ fc.name, .INVALID_PARAMETER⟩ := by
  unfold ToolManager.handleToolCall ToolManager.resolveTool
  rw [h1, mapGet_eq_none_of_not_hasName m fc.name h2]
  rfl

/-- C4: every record in the output of `getToolDeclarations` comes from a
registered tool that has a declaration, and its shape is
`{functionDeclarations: decl}` exactly when that tool's registry name is
`weather`, and the one-key record `{[name]: decl}` keyed by the registry
name otherwise. -/
theorem getToolDeclarations_record_shape (m : ToolManager) (r : DeclRecord) :
    r ∈ m.getToolDeclarations ↔
      ∃ name t decl, (name, t) ∈ m.tools ∧ t.getDeclaration = some decl ∧
        r = if name == "weather" then DeclRecord.functionDeclarations decl
            else DeclRecord.keyed name decl := by
  rw [getToolDeclarations_eq, List.mem_filterMap]
  constructor
  · rintro ⟨⟨n, t⟩, hp, hr⟩
    cases hd : t.getDeclaration with
    | none => simp [declRecordOf, hd] at hr
    | some decl =>
      refine ⟨n, t, decl, hp, hd, ?_⟩
      simp only [declRecordOf, hd, Option.map_some] at hr
      exact (Option.some.inj hr).symm
  · rintro ⟨n, t, decl, hmem, hd, hr⟩
    exact ⟨(n, t), hmem, by simp [declRecordOf, hd, hr]⟩

/-- Auxiliary induction for C6: over a list of entries that all carry a
declaration, `filterMap declRecordOf` relates one-to-one, in order, to the
entries. -/
theorem forall₂_filterMap_declRecordOf (l : List (String × Tool))
    (h : ∀ p ∈ l, (p.2.getDeclaration).isSome = true) :
    List.Forall₂
      (fun p r => ∃ decl, p.2.getDeclaration = some decl ∧
        r = if p.1 == "weather" then DeclRecord.functionDeclarations decl
            else DeclRecord.keyed p.1 decl)
      l (l.filterMap declRecordOf) := by
  induction l with
  | nil => simp
  | cons p l ih =>
    obtain ⟨decl, hd⟩ :=
      Option.isSome_iff_exists.mp (h p (List.mem_cons_self p l))
    have hr : declRecordOf p =
        some (if p.1 == "weather" then DeclRecord.functionDeclarations decl
              else DeclRecord.keyed p.1 decl) := by
      simp [declRecordOf, hd]
    rw [List.filterMap_cons, hr]
    exact List.Forall₂.cons ⟨decl, hd, rfl⟩
      (ih (fun q hq => h q (List.mem_cons_of_mem p hq)))

/-- C6 counterexample: a registry can hold a registered tool that
contributes no record — with one registered tool lacking `getDeclaration`,
`getToolDeclarations` returns the empty array, not one record per
registered tool. -/
theorem getToolDeclarations_omission_cex :
    ToolManager.getToolDeclarations ⟨[("broken", bareTool)]⟩ = [] ∧
    (ToolManager.getToolDeclarations ⟨[("broken", bareTool)]⟩).length ≠
      [("broken", bareTool)].length :=
  ⟨rfl, by decide⟩

/-- C6 amended: for every registry state in which every registered tool
has a `getDeclaration` member, `getToolDeclarations` returns exactly one
declaration record per registered tool, in registration order, with no
tool omitted and none duplicated (stated as an ordered one-to-one
correspondence between the registry entries and the output records). -/
theorem getToolDeclarations_complete (m : ToolManager)
    (h : ∀ p ∈ m.tools, (p.2.getDeclaration).isSome = true) :
    List.Forall₂
      (fun p r => ∃ decl, p.2.getDeclaration = some decl ∧
        r = if p.1 == "weather" then DeclRecord.functionDeclarations decl
            else DeclRecord.keyed p.1 decl)
      m.tools m.getToolDeclarations := by
  rw [getToolDeclarations_eq]
  exact forall₂_filterMap_declRecordOf m.tools h

theorem getToolDeclarations_complete_witness :
    ((∀ p ∈ demoManager2.tools, (p.2.getDeclaration).isSome = true) ∧
     List.Forall₂
       (fun p r => ∃ decl, p.2.getDeclaration = some decl ∧
         r = if p.1 == "weather" then DeclRecord.functionDeclarations decl
             else DeclRecord.keyed p.1 decl)
       demoManager2.tools demoManager2.getToolDeclarations) :=
  ⟨by decide, getToolDeclarations_complete demoManager2 (by decide)⟩

/-- Auxiliary induction for C7: the records depend only on each entry's
name and `getDeclaration` member. -/
theorem filterMap_declRecordOf_congr (l1 l2 : List (String × Tool))
    (h : List.Forall₂
      (fun p q => p.1 = q.1 ∧ p.2.getDeclaration = q.2.getDeclaration)
      l1 l2) :
    l1.filterMap declRecordOf = l2.filterMap declRecordOf := by
  induction h with
  | nil => rfl
  | @cons a b l₁ l₂ hpq hl ih =>
    rw [List.filterMap_cons, List.filterMap_cons, ih]
    have he : declRecordOf a = declRecordOf b := by
      simp only [declRecordOf, hpq.1, hpq.2]
    rw [he]

/-- C7: `getToolDeclarations` is read-only — its output depends only on
the registry's names and `getDeclaration` members, never on any tool's
`execute` (so it invokes no tool), and in this embedding it is a pure
function of the registry state, so calling it twice on the same registry
with no intervening registration yields structurally identical output. -/
theorem getToolDeclarations_pure (m mp : ToolManager)
    (h : List.Forall₂
      (fun p q => p.1 = q.1 ∧ p.2.getDeclaration = q.2.getDeclaration)
      m.tools mp.tools) :
    m.getToolDeclarations = mp.getToolDeclarations := by
  rw [getToolDeclarations_eq, getToolDeclarations_eq]
  exact filterMap_declRecordOf_congr m.tools mp.tools h

theorem getToolDeclarations_pure_witness :
    (List.Forall₂
       (fun p q => p.1 = q.1 ∧ p.2.getDeclaration = q.2.getDeclaration)
       demoManager2.tools demoManager2Alt.tools ∧
     demoManager2.getToolDeclarations = demoManager2Alt.getToolDeclarations) :=
  ⟨List.Forall₂.cons ⟨rfl, rfl⟩ (List.Forall₂.cons ⟨rfl, rfl⟩ List.Forall₂.nil),
   getToolDeclarations_pure demoManager2 demoManager2Alt
     (List.Forall₂.cons ⟨rfl, rfl⟩
       (List.Forall₂.cons ⟨rfl, rfl⟩ List.Forall₂.nil))⟩

/-- Auxiliary induction for C8: entries without a declaration can be
filtered out without changing the record list, and the record list is
exactly as long as the list of entries that do carry a declaration. -/
theorem filterMap_declRecordOf_filter (l : List (String × Tool)) :
    (l.filter (fun p => (p.2.getDeclaration).isSome)).filterMap declRecordOf
      = l.filterMap declRecordOf ∧
    (l.filterMap declRecordOf).length
      = (l.filter (fun p => (p.2.getDeclaration).isSome)).length := by
  induction l with
  | nil => exact ⟨rfl, rfl⟩
  | cons p l ih =>
    cases hd : p.2.getDeclaration with
    | none =>
      have hr : declRecordOf p = none := by simp [declRecordOf, hd]
      rw [List.filterMap_cons, hr, List.filter_cons]
      simp only [hd, Option.isSome_none, Bool.false_eq_true, if_false]
      exact ih
    | some decl =>
      have hr : declRecordOf p =
          some (if p.1 == "weather" then DeclRecord.functionDeclarations decl
                else DeclRecord.keyed p.1 decl) := by
        simp [declRecordOf, hd]
      rw [List.filterMap_cons, hr, List.filter_cons]
      simp only [hd, Option.isSome_some, if_true, List.filterMap_cons, hr,
        List.length_cons]
      exact ⟨by rw [ih.1], by rw [ih.2]⟩

/-- C8: `getToolDeclarations` silently skips every registered tool whose
instance has no `getDeclaration` member: removing all such tools from the
registry leaves the output unchanged, and the output has exactly one
record per tool that does have a `getDeclaration` member — so it can have
fewer records than there are registered tools, with no error raised. -/
theorem getToolDeclarations_skips_undeclared (m : ToolManager) :
    (ToolManager.mk
        (m.tools.filter (fun p => (p.2.getDeclaration).isSome))).getToolDeclarations
      = m.getToolDeclarations ∧
    m.getToolDeclarations.length
      = (m.tools.filter (fun p => (p.2.getDeclaration).isSome)).length := by
  rw [getToolDeclarations_eq, getToolDeclarations_eq]
  exact filterMap_declRecordOf_filter m.tools

/-- C10: `EmailSenderTool.execute` never rejects with the underlying
transport error directly — whenever the body of its `try` block fails
(transport rejection or any thrown error), it rejects with a new `Error`
whose message is `Failed to send email: ` followed by the original error's
message, and consequently the dispatcher's `error` field for the
`emailSender` tool carries exactly that prefixed message. -/
theorem emailSender_wraps_failures (sendMail : MailOptions → Except JSError Unit)
    (args : Json) (e : JSError) (h : emailTryBody sendMail args = .error e) :
    EmailSenderTool.execute sendMail args =
      .error ⟨"Failed to send email: " ++ e.message⟩ ∧
    ∀ (m : ToolManager) (fc : FunctionCall),
      m.resolveTool fc.name = some (emailSenderTool sendMail) →
      fc.args = args →
      m.handleToolCall fc =
        .ok ⟨[⟨.error ("Failed to send email: " ++ e.message), fc.id⟩]⟩ := by
  have hex : EmailSenderTool.execute sendMail args =
      .error ⟨"Failed to send email: " ++ e.message⟩ := by
    unfold EmailSenderTool.execute
    rw [h]
  refine ⟨hex, ?_⟩
  intro m fc hres hargs
  simp only [ToolManager.handleToolCall, hres, emailSenderTool, hargs, hex]

theorem emailSender_wraps_failures_witness :
    (emailTryBody demoSendFail demoEmailArgs = .error ⟨"ECONNREFUSED"⟩ ∧
     EmailSenderTool.execute demoSendFail demoEmailArgs =
       .error ⟨"Failed to send email: " ++ "ECONNREFUSED"⟩ ∧
     emailManager.resolveTool "emailSender" =
       some (emailSenderTool demoSendFail) ∧
     emailManager.handleToolCall ⟨"emailSender", demoEmailArgs, "e1"⟩ =
       .ok ⟨[⟨.error ("Failed to send email: " ++ "ECONNREFUSED"), "e1"⟩]⟩) :=
  ⟨rfl,
   (emailSender_wraps_failures demoSendFail demoEmailArgs ⟨"ECONNREFUSED"⟩ rfl).1,
   rfl,
   (emailSender_wraps_failures demoSendFail demoEmailArgs ⟨"ECONNREFUSED"⟩ rfl).2
     emailManager ⟨"emailSender", demoEmailArgs, "e1"⟩ rfl rfl⟩

theorem handleToolCall_unknown_throws_witness :
    (("doesNotExist" == "get_weather_on_date") = false ∧
     (ToolManager.mk []).hasName "doesNotExist" = false ∧
     ToolManager.handleToolCall ⟨[]⟩ ⟨"doesNotExist", Json.obj [], "x2"⟩ =
       .error ⟨"Unknown tool: doesNotExist", .INVALID_PARAMETER⟩) :=
  ⟨rfl, rfl,
   handleToolCall_unknown_throws ⟨[]⟩ ⟨"doesNotExist", Json.obj [], "x2"⟩
     rfl rfl⟩
